import Mathlib

/-!
Verification of the gpggohigh library (high-level file encryption /
decryption / recipient modification and key-model assembly on top of a
GPGME-style engine).

The Go sources are shallowly embedded:

* Go strings are modelled as `List Char` (`Str`); all filenames in the
  claims are ASCII, where byte slicing and character slicing coincide.
* The filesystem is an association list from path to entry; `os.Stat`,
  `os.Remove`, `os.Rename` and the engine's file writes are explicit
  operations on it, and every mutating call is recorded in an event trace.
* The external GPGME engine is an oracle: an environment structure fixes
  the outcome of each engine call (success value or failure), so a run of
  an embedded function is a pure computation over (environment, filesystem,
  arguments).
* Go errors built with `fmt.Errorf` are modelled as constructors of an
  error inductive; `error` results are `Option`/`Except` values.
-/

namespace Gpggohigh

/-- Model of a Go string: a list of characters. -/
abbrev Str := List Char

/-- Converts a Lean string literal to the `Str` model. -/
def str (s : String) : Str := s.data

/-- Filesystem entry: a regular file with its byte content (bytes modelled
as `Nat`), or a directory. -/
inductive FsEntry
| file (content : List Nat)
| dir
deriving DecidableEq, Repr

/-- Filesystem model: association list from path to entry. -/
abbrev Fs := List (Str × FsEntry)

/-- Model of `os.Stat`: the entry at a path, or `none` when it is absent. -/
def Fs.stat (fs : Fs) (p : Str) : Option FsEntry :=
  (fs.find? (fun e => e.1 = p)).map Prod.snd

/-- Drops the entry at path `p` (helper for write/rename/remove). -/
def Fs.removeEntry (fs : Fs) (p : Str) : Fs :=
  fs.filter (fun e => ¬ (e.1 = p))

/-- Model of a file write (creating or truncating): the path now maps to a
regular file with the given content. -/
def Fs.write (fs : Fs) (p : Str) (c : List Nat) : Fs :=
  (p, FsEntry.file c) :: fs.removeEntry p

/-- Model of `os.Rename`: fails when the source path is absent, otherwise
moves the entry, silently replacing any entry at the target (POSIX). -/
def Fs.rename (fs : Fs) (src dst : Str) : Option Fs :=
  match fs.stat src with
  | none => none
  | some e => some ((dst, e) :: (fs.removeEntry src).removeEntry dst)

/-- Model of `os.Remove`: fails when the path is absent. -/
def Fs.removeFile (fs : Fs) (p : Str) : Option Fs :=
  match fs.stat p with
  | none => none
  | some _ => some (fs.removeEntry p)

/-- Errors returned by the file-transformation layer; each constructor
corresponds to one `fmt.Errorf` site in encrypt.go. -/
inductive GError
| invalidOperation (op : Nat)
| fileNotExist
| fileIsDir
| gpgmeNewFailed
| setProtocolFailed
| newDataInFailed
| setFileNameInFailed
| newDataOutFailed
| setFileNameOutFailed
| findKeysFailed (recipient : Str)
| encryptFailed
| closeOutFailed
| closeInFailed
| renameBackupFailed
| removeSourceFailed
| renameFinalFailed
| noDestinationExtension
| destinationExists (d : Str)
| decryptVerifyFailed (msg : Str)
| decryptResultFailed
| verifyResultFailed
deriving DecidableEq, Repr

/-- Observable events of a run: engine invocations, data-handle closes and
filesystem mutations, in execution order. -/
inductive Event
| engineEncrypt (flags : Nat)
| engineEncryptSign (flags : Nat)
| engineDecryptVerify
| engineDecryptResult
| engineVerifyResult
| closeOut
| closeIn
| fsWrite (p : Str) (content : List Nat)
| fsRename (src dst : Str)
| fsRemove (p : Str)
deriving DecidableEq, Repr

namespace gpgme

/-- Encrypt flag `gpgme.EncryptAlwaysTrust` (numeric values follow gpgme.h;
only distinctness matters for the embedded control flow). -/
def EncryptAlwaysTrust : Nat := 1

/-- Encrypt flag `gpgme.EncryptFile`. -/
def EncryptFile : Nat := 1024

/-- Encrypt flag `gpgme.EncryptAddRecp`. -/
def EncryptAddRecp : Nat := 2048

/-- Encrypt flag `gpgme.EncryptChgRecp`. -/
def EncryptChgRecp : Nat := 4096

end gpgme

/-- Embeds the destination-inference block of `DecryptFile`
(encrypt.go, the `if clearFilename == ""` branch): an explicit non-empty
destination is used verbatim; otherwise the source must be longer than 4
characters and its last 4 characters must be exactly `.gpg`, `.pgp` or
`.asc`, which are stripped; otherwise the unknown-extension error. -/
def inferDecryptDestination (cypherFilename clearFilename : Str) : Except GError Str :=
  if clearFilename = [] then
    if 4 < cypherFilename.length ∧
        (cypherFilename.drop (cypherFilename.length - 4) = str (r".gpg") ∨
         cypherFilename.drop (cypherFilename.length - 4) = str (r".pgp") ∨
         cypherFilename.drop (cypherFilename.length - 4) = str (r".asc")) then
      Except.ok (cypherFilename.take (cypherFilename.length - 4))
    else
      Except.error GError.noDestinationExtension
  else
    Except.ok clearFilename

/-- Restates the spec's wording of destination inference (spec §4.4 and
claim C4): explicit destination verbatim when non-empty; otherwise an exact
trailing match of one of the three case-sensitive extensions, with the
length checked before slicing, stripped from the end; otherwise the
unknown-extension error. -/
def inferDecryptDestinationSpec (sourcePath explicitDestination : Str) : Except GError Str :=
  if explicitDestination ≠ [] then
    Except.ok explicitDestination
  else if 4 < sourcePath.length ∧
      (str (r".gpg") <:+ sourcePath ∨
       str (r".pgp") <:+ sourcePath ∨
       str (r".asc") <:+ sourcePath) then
    Except.ok (sourcePath.take (sourcePath.length - 4))
  else
    Except.error GError.noDestinationExtension

/-! ### Key/Signature model builder (keys.go) -/

/-- Engine-side handle of one signature on a user ID, as read through the
gpgme accessors in the loop body of `fillUidSignatures` (keys.go). Times
are modelled as integers. -/
structure KeySigHandle where
  keyID : Str
  revoked : Bool
  expired : Bool
  invalid : Bool
  exportable : Bool
  created : Int
  expiresAt : Int
  doesExpire : Bool
  uid : Str
  name : Str
  email : Str
  comment : Str
  trustScope : Str
  hasNotationFlag : Bool
deriving DecidableEq, Repr

/-- Flat record `KeyUidIssuerSignatureType` from keys.go. -/
structure KeyUidIssuerSignatureType where
  CreationTime : Int
  ExpirationTime : Int
  Expires : Bool
  IssuerKeyID : Str
  Revoked : Bool
  Expired : Bool
  Invalid : Bool
  Exportable : Bool
  UID : Str
  Name : Str
  Email : Str
  Comment : Str
  TrustScope : Str
  HasNotations : Bool
deriving DecidableEq, Repr

/-- Loop body of `fillUidSignatures`: builds one flat record from one
engine signature handle. -/
def fillOneSig (sg : KeySigHandle) : KeyUidIssuerSignatureType :=
  { Revoked := sg.revoked
    Expired := sg.expired
    IssuerKeyID := sg.keyID
    Invalid := sg.invalid
    Exportable := sg.exportable
    CreationTime := sg.created
    ExpirationTime := sg.expiresAt
    Expires := sg.doesExpire
    UID := sg.uid
    Name := sg.name
    Email := sg.email
    Comment := sg.comment
    TrustScope := sg.trustScope
    HasNotations := sg.hasNotationFlag }

/-- The issuer-keyed map `KeyUidSignaturesType` from keys.go, modelled as
an association list. -/
abbrev KeyUidSignaturesType := List (Str × List KeyUidIssuerSignatureType)

/-- Go's `sigs[keyID] = append(sigs[keyID], oneSig)` on the association
list: appends to the issuer's slice, creating it if absent. -/
def mapAppend : KeyUidSignaturesType → Str → KeyUidIssuerSignatureType → KeyUidSignaturesType
  | [], k, v => [(k, [v])]
  | (k', vs) :: rest, k, v =>
      if k' = k then (k', vs ++ [v]) :: rest else (k', vs) :: mapAppend rest k v

/-- Go map lookup: the issuer's slice, or nil (empty) when absent. -/
def mapLookup : KeyUidSignaturesType → Str → List KeyUidIssuerSignatureType
  | [], _ => []
  | (k', vs) :: rest, k => if k' = k then vs else mapLookup rest k

/-- Order used by the `slices.SortFunc` comparator in `fillUidSignatures`:
`b.CreationTime.Compare(a.CreationTime)` sorts most-recent first, so `a`
precedes `b` when `b`'s creation time is at most `a`'s. -/
def sigLe (a b : KeyUidIssuerSignatureType) : Prop :=
  b.CreationTime ≤ a.CreationTime

instance : DecidableRel sigLe := fun a b =>
  inferInstanceAs (Decidable (b.CreationTime ≤ a.CreationTime))

instance : IsTotal KeyUidIssuerSignatureType sigLe :=
  ⟨fun a b => le_total b.CreationTime a.CreationTime⟩

instance : IsTrans KeyUidIssuerSignatureType sigLe :=
  ⟨fun _ _ _ hab hbc => le_trans hbc hab⟩

/-- Embeds `fillUidSignatures` (keys.go): walks the signature sequence of
one user ID, groups the flat records by issuer key id, then sorts every
issuer's slice by creation time descending. `slices.SortFunc` (an unstable
comparator sort) is modelled by insertion sort, which agrees with it up to
tie-breaking among equal creation times. -/
def fillUidSignatures (sigList : List KeySigHandle) : KeyUidSignaturesType :=
  let grouped := sigList.foldl (fun m sg => mapAppend m sg.keyID (fillOneSig sg)) []
  grouped.map (fun p => (p.1, List.insertionSort sigLe p.2))

/-- Engine-side handle of one user ID (gpgme accessors used by
`fillUserIDs`); the linked `Next` chain is flattened into a list, and the
signature chain into `sigList`. -/
structure UserIDHandle where
  uid : Str
  name : Str
  invalid : Bool
  revoked : Bool
  validity : Nat
  address : Str
  hasSig : Bool
  sigList : List KeySigHandle
deriving DecidableEq, Repr

/-- Flat record `KeyUserIDsType` from keys.go. -/
structure KeyUserIDsType where
  UserID : Str
  Name : Str
  Invalid : Bool
  Revoked : Bool
  Validity : Nat
  Address : Str
  HasSignatures : Bool
  Signatures : KeyUidSignaturesType
deriving DecidableEq, Repr

/-- Loop body of `fillUserIDs`: one flat user-ID record; signatures are
filled only when the handle reports `HasSig`, else left nil (empty). -/
def fillOneUid (u : UserIDHandle) : KeyUserIDsType :=
  { UserID := u.uid
    Name := u.name
    Invalid := u.invalid
    Revoked := u.revoked
    Validity := u.validity
    Address := u.address
    HasSignatures := u.hasSig
    Signatures := if u.hasSig then fillUidSignatures u.sigList else [] }

/-- Embeds `fillUserIDs` (keys.go): walks the user-ID chain to completion. -/
def fillUserIDs : List UserIDHandle → List KeyUserIDsType
  | [] => []
  | u :: rest => fillOneUid u :: fillUserIDs rest

/-- Engine-side key handle (gpgme accessors used by `fillKey`). The
`hasUserIDs` flag and the `userIDs` chain are separate engine outputs; the
code reads the flag and only then walks the chain. -/
structure KeyHandle where
  fingerprint : Str
  canAuthenticate : Bool
  canCertify : Bool
  canEncrypt : Bool
  canSign : Bool
  chainID : Str
  disabled : Bool
  expired : Bool
  hasUserIDs : Bool
  invalid : Bool
  isQualified : Bool
  issuerName : Str
  issuerSerial : Str
  keyListMode : Nat
  ownerTrust : Nat
  protocol : Nat
  revoked : Bool
  secret : Bool
  userIDs : List UserIDHandle
deriving DecidableEq, Repr

/-- Flat record `KeyType` from keys.go. -/
structure KeyType where
  Fingerprint : Str
  CanAuthenticate : Bool
  CanCertify : Bool
  CanEncrypt : Bool
  CanSign : Bool
  ChainID : Str
  Disabled : Bool
  Expired : Bool
  HasUserIDs : Bool
  Invalid : Bool
  IsQualified : Bool
  IssuerName : Str
  IssuerSerial : Str
  KeyListMode : Nat
  OwnerTrust : Nat
  Protocol : Nat
  Revoked : Bool
  Secret : Bool
  UserIDs : List KeyUserIDsType
deriving DecidableEq, Repr

/-- Embeds `fillKey` (keys.go): copies the scalar accessors, and fills
`UserIDs` from the chain only when the engine's `HasUserIDs` flag is set,
else leaves it nil (empty). -/
def fillKey (k : KeyHandle) : KeyType :=
  { Fingerprint := k.fingerprint
    CanAuthenticate := k.canAuthenticate
    CanCertify := k.canCertify
    CanEncrypt := k.canEncrypt
    CanSign := k.canSign
    ChainID := k.chainID
    Disabled := k.disabled
    Expired := k.expired
    HasUserIDs := k.hasUserIDs
    Invalid := k.invalid
    IsQualified := k.isQualified
    IssuerName := k.issuerName
    IssuerSerial := k.issuerSerial
    KeyListMode := k.keyListMode
    OwnerTrust := k.ownerTrust
    Protocol := k.protocol
    Revoked := k.revoked
    Secret := k.secret
    UserIDs := if k.hasUserIDs then fillUserIDs k.userIDs else [] }

/-- Sample engine signature handle used for the concrete three-signature
instance of claim C5: one fixed issuer, variable creation time. -/
def sampleSig (t : Int) : KeySigHandle :=
  { keyID := str (r"0123456789ABCDEF")
    revoked := false
    expired := false
    invalid := false
    exportable := true
    created := t
    expiresAt := 0
    doesExpire := false
    uid := str (r"Alice <alice@example.org>")
    name := str (r"Alice")
    email := str (r"alice@example.org")
    comment := []
    trustScope := []
    hasNotationFlag := false }

/-- Fully concrete engine key handle whose `hasUserIDs` flag is set even
though its user-ID chain is empty (an inconsistent handle: the accessors
are independent engine outputs, and keys.go trusts the flag). -/
def kBad : KeyHandle :=
  { fingerprint := str (r"B1D2")
    canAuthenticate := false
    canCertify := false
    canEncrypt := true
    canSign := false
    chainID := []
    disabled := false
    expired := false
    hasUserIDs := true
    invalid := false
    isQualified := false
    issuerName := []
    issuerSerial := []
    keyListMode := 0
    ownerTrust := 0
    protocol := 0
    revoked := false
    secret := false
    userIDs := [] }

/-! ### File transformation engine (encrypt.go) -/

/-- Resolves every recipient in order through the engine's `FindKeys`
(keys as opaque numbers), exactly as the loop in `ModRecipients` and
`EncryptFile`; the first failing recipient aborts and is reported. -/
def findKeysAll (find : Str → Option (List Nat)) : List Str → Except Str (List Nat)
  | [] => Except.ok []
  | r :: rest =>
      match find r with
      | none => Except.error r
      | some ks =>
          match findKeysAll find rest with
          | Except.error r' => Except.error r'
          | Except.ok more => Except.ok (ks ++ more)

/-- Engine oracle for one `ModRecipients` run: outcome of every engine
call, plus the output of `RandomString(8)`. `encryptResult` is `none` when
the engine's `Encrypt` fails, otherwise the ciphertext it writes to the
temporary output file. -/
structure ModEnv where
  newOk : Bool
  setProtocolOk : Bool
  newDataInOk : Bool
  setFileNameInOk : Bool
  newDataOutOk : Bool
  randomSuffix : Str
  setFileNameOutOk : Bool
  findKeys : Str → Option (List Nat)
  encryptResult : Option (List Nat)
  closeOutOk : Bool
  closeInOk : Bool

/-- Embeds `ModRecipients` (encrypt.go): operation check, source stat,
context and data setup, temporary output name from the random suffix,
recipient resolution, engine encrypt into the temporary file, explicit
closes of both data handles, then the commit phase — backup-rename or
remove of the source, and rename of the temporary file onto the source.
The result carries the final filesystem and the ordered event trace. -/
def ModRecipients (env : ModEnv) (operation : Nat) (filename backupExtension : Str)
    (recipients : List Str) (fs : Fs) : Except GError Unit × Fs × List Event :=
  if operation ≠ gpgme.EncryptAddRecp ∧ operation ≠ gpgme.EncryptChgRecp then
    (Except.error (GError.invalidOperation operation), fs, [])
  else
    match fs.stat filename with
    | none => (Except.error GError.fileNotExist, fs, [])
    | some FsEntry.dir => (Except.error GError.fileIsDir, fs, [])
    | some (FsEntry.file _) =>
    if env.newOk = false then (Except.error GError.gpgmeNewFailed, fs, []) else
    if env.setProtocolOk = false then (Except.error GError.setProtocolFailed, fs, []) else
    if env.newDataInOk = false then (Except.error GError.newDataInFailed, fs, []) else
    if env.setFileNameInOk = false then (Except.error GError.setFileNameInFailed, fs, []) else
    if env.newDataOutOk = false then (Except.error GError.newDataOutFailed, fs, []) else
    let randomFilePart := '.' :: env.randomSuffix
    let outFilename := filename ++ randomFilePart ++ str (r".tmp")
    if env.setFileNameOutOk = false then (Except.error GError.setFileNameOutFailed, fs, []) else
    match findKeysAll env.findKeys recipients with
    | Except.error r => (Except.error (GError.findKeysFailed r), fs, [])
    | Except.ok _thisRecipients =>
    match env.encryptResult with
    | none =>
        (Except.error GError.encryptFailed, fs,
          [Event.engineEncrypt (operation ||| gpgme.EncryptFile)])
    | some cipher =>
    let fs1 := fs.write outFilename cipher
    let ev1 := [Event.engineEncrypt (operation ||| gpgme.EncryptFile),
                Event.fsWrite outFilename cipher]
    if env.closeOutOk = false then
      (Except.error GError.closeOutFailed, fs1, ev1 ++ [Event.closeOut]) else
    if env.closeInOk = false then
      (Except.error GError.closeInFailed, fs1, ev1 ++ [Event.closeOut, Event.closeIn]) else
    let ev2 := ev1 ++ [Event.closeOut, Event.closeIn]
    if backupExtension ≠ [] then
      let backupName := filename ++ randomFilePart ++ backupExtension
      match fs1.rename filename backupName with
      | none =>
          (Except.error GError.renameBackupFailed, fs1,
            ev2 ++ [Event.fsRename filename backupName])
      | some fs2 =>
          let ev3 := ev2 ++ [Event.fsRename filename backupName]
          match fs2.rename outFilename filename with
          | none =>
              (Except.error GError.renameFinalFailed, fs2,
                ev3 ++ [Event.fsRename outFilename filename])
          | some fs3 => (Except.ok (), fs3, ev3 ++ [Event.fsRename outFilename filename])
    else
      match fs1.removeFile filename with
      | none =>
          (Except.error GError.removeSourceFailed, fs1, ev2 ++ [Event.fsRemove filename])
      | some fs2 =>
          let ev3 := ev2 ++ [Event.fsRemove filename]
          match fs2.rename outFilename filename with
          | none =>
              (Except.error GError.renameFinalFailed, fs2,
                ev3 ++ [Event.fsRename outFilename filename])
          | some fs3 => (Except.ok (), fs3, ev3 ++ [Event.fsRename outFilename filename])

/-- Engine oracle for one `EncryptFile` run. -/
structure EncEnv where
  newOk : Bool
  setProtocolOk : Bool
  newDataInOk : Bool
  setFileNameInOk : Bool
  newDataOutOk : Bool
  setFileNameOutOk : Bool
  findKeys : Str → Option (List Nat)
  encryptResult : Option (List Nat)

/-- Destination computed by `EncryptFile` (encrypt.go): the explicit name,
or the source with `.gpg` appended when the explicit name is empty. -/
def encDestination (sourceFilename destinationFilename : Str) : Str :=
  if destinationFilename = [] then sourceFilename ++ str (r".gpg") else destinationFilename

/-- Embeds `EncryptFile` (encrypt.go): context and data setup, destination
naming (no existence check anywhere), recipient resolution, then engine
encrypt — or encrypt-and-sign when `sign` is set — writing the engine
output at the destination path, replacing whatever was there. -/
def EncryptFile (env : EncEnv) (sourceFilename destinationFilename : Str)
    (recipients : List Str) (sign : Bool) (fs : Fs) : Option GError × Fs × List Event :=
  if env.newOk = false then (some GError.gpgmeNewFailed, fs, []) else
  if env.setProtocolOk = false then (some GError.setProtocolFailed, fs, []) else
  if env.newDataInOk = false then (some GError.newDataInFailed, fs, []) else
  if env.setFileNameInOk = false then (some GError.setFileNameInFailed, fs, []) else
  if env.newDataOutOk = false then (some GError.newDataOutFailed, fs, []) else
  let destination := encDestination sourceFilename destinationFilename
  if env.setFileNameOutOk = false then (some GError.setFileNameOutFailed, fs, []) else
  match findKeysAll env.findKeys recipients with
  | Except.error r => (some (GError.findKeysFailed r), fs, [])
  | Except.ok _thisRecipients =>
  let flags := gpgme.EncryptAlwaysTrust ||| gpgme.EncryptFile
  let callEv := if sign then Event.engineEncryptSign flags else Event.engineEncrypt flags
  match env.encryptResult with
  | none => (some GError.encryptFailed, fs, [callEv])
  | some cipher =>
      (none, fs.write destination cipher, [callEv, Event.fsWrite destination cipher])

/-- The literal error message the engine produces for the no-encrypted-data
condition, compared against `err.Error()` in `DecryptFile`. -/
def noDataMsg : Str := str (r"No data")

/-- The warning string `DecryptFile` returns for that condition. -/
def noDataWarning : Str := str (r"DecryptFile - DecryptVerify: no encrypted data")

/-- The five named return values of `DecryptFile` (encrypt.go); the decrypt
result and the per-message signatures are opaque engine values, modelled as
numbers; `error = none` models a nil returned error. -/
structure DecryptFileReturn where
  decryptionResult : Nat
  filename : Str
  signatures : List Nat
  warning : Str
  error : Option GError
deriving DecidableEq, Repr

/-- Engine oracle for one `DecryptFile` run. `decryptVerifyErr` is `none`
when the combined decrypt+verify call succeeds, else the message of the
error it returns; on success the engine writes `plainOutput` to the
destination. `decryptResultOut` / `verifyResultOut` are the outcomes of the
two result-retrieval calls. -/
structure DecEnv where
  newOk : Bool
  setProtocolOk : Bool
  newDataInOk : Bool
  setFileNameInOk : Bool
  newDataOutOk : Bool
  setFileNameOutOk : Bool
  decryptVerifyErr : Option Str
  plainOutput : List Nat
  decryptResultOut : Option Nat
  verifyResultOut : Option (Str × List Nat)

/-- Tail of `DecryptFile` after the `DecryptVerify` call: retrieval of the
decryption result and then of the verify result, keeping the warning and
any already-assigned named returns on the error paths. -/
def decryptTail (env : DecEnv) (warning : Str) (fs : Fs) (ev : List Event) :
    DecryptFileReturn × Fs × List Event :=
  match env.decryptResultOut with
  | none =>
      ({ decryptionResult := 0, filename := [], signatures := [], warning := warning,
         error := some GError.decryptResultFailed }, fs, ev ++ [Event.engineDecryptResult])
  | some dr =>
      match env.verifyResultOut with
      | none =>
          ({ decryptionResult := dr, filename := [], signatures := [], warning := warning,
             error := some GError.verifyResultFailed }, fs,
            ev ++ [Event.engineDecryptResult, Event.engineVerifyResult])
      | some (fn, sgs) =>
          ({ decryptionResult := dr, filename := fn, signatures := sgs, warning := warning,
             error := none }, fs,
            ev ++ [Event.engineDecryptResult, Event.engineVerifyResult])

/-- Embeds `DecryptFile` (encrypt.go): source stat, context and data setup,
destination inference, refusal when the destination already exists, the
combined decrypt+verify call — whose `No data` failure is downgraded to a
warning while any other failure is fatal — and the two result retrievals. -/
def DecryptFile (env : DecEnv) (cypherFilename clearFilename : Str) (fs : Fs) :
    DecryptFileReturn × Fs × List Event :=
  let fail := fun (e : GError) =>
    ({ decryptionResult := 0, filename := [], signatures := [], warning := [],
       error := some e } : DecryptFileReturn)
  match fs.stat cypherFilename with
  | none => (fail GError.fileNotExist, fs, [])
  | some FsEntry.dir => (fail GError.fileIsDir, fs, [])
  | some (FsEntry.file _) =>
  if env.newOk = false then (fail GError.gpgmeNewFailed, fs, []) else
  if env.setProtocolOk = false then (fail GError.setProtocolFailed, fs, []) else
  if env.newDataInOk = false then (fail GError.newDataInFailed, fs, []) else
  if env.setFileNameInOk = false then (fail GError.setFileNameInFailed, fs, []) else
  if env.newDataOutOk = false then (fail GError.newDataOutFailed, fs, []) else
  match inferDecryptDestination cypherFilename clearFilename with
  | Except.error e => (fail e, fs, [])
  | Except.ok destination =>
  match fs.stat destination with
  | some _ => (fail (GError.destinationExists destination), fs, [])
  | none =>
  if env.setFileNameOutOk = false then (fail GError.setFileNameOutFailed, fs, []) else
  match env.decryptVerifyErr with
  | some m =>
      if m = noDataMsg then
        decryptTail env noDataWarning fs [Event.engineDecryptVerify]
      else
        (fail (GError.decryptVerifyFailed m), fs, [Event.engineDecryptVerify])
  | none =>
      decryptTail env [] (fs.write destination env.plainOutput)
        [Event.engineDecryptVerify, Event.fsWrite destination env.plainOutput]

/-! ### Byte-buffer crypto operations (signatures.go) -/

/-- Errors flowing through `SignBytes`/`VerifyBytes`: the distinguished
`io.EOF` sentinel, a raw engine read error, a step failure, or a
`fmt.Errorf`-style wrap of an inner error. -/
inductive GoError
| eof
| readRaw (msg : Str)
| simpleErr (site : Str)
| wrapped (site : Str) (inner : GoError)
deriving DecidableEq, Repr

/-- One result of `dataOut.Read` on a 10 KiB chunk buffer: a successful
read (nil error), a read returning `io.EOF` (its final bytes included), or
a non-EOF read error. -/
inductive ReadStep
| rOk (bytes : List Nat)
| rEof (bytes : List Nat)
| rErr (bytes : List Nat) (msg : Str)
deriving DecidableEq, Repr

/-- Engine oracle for one `SignBytes` run. `findKeysRes` carries the
fingerprints of the resolved signing keys; `reads` is the successive
outcomes of the chunked drain. -/
structure SignEnv where
  newOk : Bool
  setProtocolOk : Bool
  newDataInOk : Bool
  newDataOutOk : Bool
  findKeysRes : Option (List Str)
  signOk : Bool
  rewindOk : Bool
  reads : List ReadStep

/-- The read loop of `SignBytes`: drains chunks, appending each successful
chunk; a non-EOF error is wrapped and returned at once, the bytes of the
failing call dropped but the accumulator kept (named returns); `io.EOF`
appends the final chunk and leaves `err = io.EOF`. `none` means the oracle
ran out of read outcomes (the real loop never exits that way). -/
def signReadLoop : List ReadStep → List Nat → Option (List Nat × Nat × Option GoError)
  | [], _ => none
  | ReadStep.rOk bytes :: rest, acc => signReadLoop rest (acc ++ bytes)
  | ReadStep.rEof bytes :: _, acc => some (acc ++ bytes, bytes.length, some GoError.eof)
  | ReadStep.rErr bytes m :: _, acc =>
      some (acc, bytes.length,
        some (GoError.wrapped (str (r"SignBytes - Read failed")) (GoError.readRaw m)))

/-- Embeds `SignBytes` (signatures.go). The return tuple is
(cipherText, n, signingFingerPrints, err), with Go's named-return
semantics: every `return` yields the values the named results hold at that
point. -/
def SignBytes (env : SignEnv) (plainText : List Nat) (signWith : Str) (armored : Bool) :
    Option (List Nat × Nat × List Str × Option GoError) :=
  if env.newOk = false then
    some ([], 0, [], some (GoError.simpleErr (str (r"SignBytes - gpgme.New failed")))) else
  if env.setProtocolOk = false then
    some ([], 0, [], some (GoError.simpleErr (str (r"SignBytes - SetProtocol failed")))) else
  if env.newDataInOk = false then
    some ([], 0, [], some (GoError.simpleErr (str (r"SignBytes - NewData (in) failed")))) else
  if env.newDataOutOk = false then
    some ([], 0, [], some (GoError.simpleErr (str (r"SignBytes - NewData (out) failed")))) else
  match env.findKeysRes with
  | none =>
      some ([], 0, [], some (GoError.simpleErr (str (r"SignBytes - FindKeys (out) failed"))))
  | some signingFingerPrints =>
  if env.signOk = false then
    some ([], 0, signingFingerPrints,
      some (GoError.simpleErr (str (r"SignBytes - Encrypt failed")))) else
  if env.rewindOk = false then
    some ([], 0, signingFingerPrints,
      some (GoError.simpleErr (str (r"SignBytes - Rewind failed")))) else
  match signReadLoop env.reads [] with
  | none => none
  | some (cipherText, n, err) => some (cipherText, n, signingFingerPrints, err)

/-- Engine oracle for one `VerifyBytes` run. `verifyRes` is the (filename,
signatures) pair of a successful `Verify` call, `none` its failure. -/
structure VerifyEnv where
  newOk : Bool
  setProtocolOk : Bool
  newDataInOk : Bool
  newDataOutOk : Bool
  verifyRes : Option (Str × List Nat)
  rewindOk : Bool
  reads : List ReadStep

/-- The read loop of `VerifyBytes`: identical drain, except a chunk is
appended only when its length is positive. -/
def verifyReadLoop : List ReadStep → List Nat → Option (List Nat × Option GoError)
  | [], _ => none
  | ReadStep.rOk bytes :: rest, acc =>
      verifyReadLoop rest (if 0 < bytes.length then acc ++ bytes else acc)
  | ReadStep.rEof bytes :: _, acc =>
      some ((if 0 < bytes.length then acc ++ bytes else acc), some GoError.eof)
  | ReadStep.rErr _ m :: _, acc =>
      some (acc,
        some (GoError.wrapped (str (r"VerifyBytes - Read failed")) (GoError.readRaw m)))

/-- Embeds `VerifyBytes` (signatures.go). The return tuple is
(plainText, signatures, filename, err); on the rewind failure the already
assigned filename and signatures are returned (named returns). -/
def VerifyBytes (env : VerifyEnv) (cipherText : List Nat) :
    Option (List Nat × List Nat × Str × Option GoError) :=
  if env.newOk = false then
    some ([], [], [], some (GoError.simpleErr (str (r"VerifyBytes - gpgme.New failed")))) else
  if env.setProtocolOk = false then
    some ([], [], [], some (GoError.simpleErr (str (r"VerifyBytes - SetProtocol failed")))) else
  if env.newDataInOk = false then
    some ([], [], [], some (GoError.simpleErr (str (r"VerifyBytes - NewData (in) failed")))) else
  if env.newDataOutOk = false then
    some ([], [], [], some (GoError.simpleErr (str (r"VerifyBytes - NewData (out) failed")))) else
  match env.verifyRes with
  | none =>
      some ([], [], [], some (GoError.simpleErr (str (r"VerifyBytes - Verify failed"))))
  | some (filename, signatures) =>
  if env.rewindOk = false then
    some ([], signatures, filename,
      some (GoError.simpleErr (str (r"VerifyBytes - Rewind failed")))) else
  match verifyReadLoop env.reads [] with
  | none => none
  | some (plainText, err) => some (plainText, signatures, filename, err)

/-- Predicate on the drain oracle: the step is a successful (nil-error)
read. -/
def ReadStep.isOk : ReadStep → Prop
  | ReadStep.rOk _ => True
  | _ => False

/-- Concrete environment for the C1 counterexample: backup extension
`.tmp` makes the backup path collide with the temporary output path. -/
def c1Env : ModEnv :=
  { newOk := true, setProtocolOk := true, newDataInOk := true,
    setFileNameInOk := true, newDataOutOk := true, randomSuffix := str (r"ABCDEFGH"),
    setFileNameOutOk := true, findKeys := fun _ => some [1],
    encryptResult := some [2], closeOutOk := true, closeInOk := true }

/-- Concrete environment for the C7 counterexample: one successful 3-byte
chunk, then a non-EOF read error. -/
def c7Env : SignEnv :=
  { newOk := true, setProtocolOk := true, newDataInOk := true, newDataOutOk := true,
    findKeysRes := some [str (r"F1")], signOk := true, rewindOk := true,
    reads := [ReadStep.rOk [1, 2, 3], ReadStep.rErr [] (str (r"boom"))] }

/-- Concatenation of the bytes of the successful chunk reads, in order
(the buffer the drain loop accumulates before a terminal step). -/
def okBytesConcat : List ReadStep → List Nat
  | [] => []
  | ReadStep.rOk bytes :: rest => bytes ++ okBytesConcat rest
  | _ :: rest => okBytesConcat rest

/-- Concrete environment for the C3 witness: the combined decrypt+verify
call fails with the `No data` message; both result retrievals succeed. -/
def c3Env : DecEnv :=
  { newOk := true, setProtocolOk := true, newDataInOk := true, setFileNameInOk := true,
    newDataOutOk := true, setFileNameOutOk := true,
    decryptVerifyErr := some noDataMsg, plainOutput := [],
    decryptResultOut := some 5, verifyResultOut := some (str (r"orig.txt"), [3]) }

theorem ext_suffix_iff_drop (s e : Str) (he : e.length = 4) :
    (s.drop (s.length - 4) = e) ↔ e <:+ s := by
  rw [List.suffix_iff_eq_drop, he]
  exact eq_comm

/-- Claim C4: `DecryptFile` destination inference uses the explicit
destination verbatim when non-empty, otherwise strips an exact trailing
`.gpg`/`.pgp`/`.asc` (length-checked) and errors on anything else; the code
definition agrees with the spec wording on all inputs, and in particular
`report.txt.gpg` with empty destination yields `report.txt` while
`report.bin` yields the unknown-extension error. -/
theorem inferDecryptDestination_spec_eq :
    (∀ s e : Str, inferDecryptDestination s e = inferDecryptDestinationSpec s e) ∧
    inferDecryptDestination (str (r"report.txt.gpg")) [] = Except.ok (str (r"report.txt")) ∧
    inferDecryptDestination (str (r"report.bin")) [] = Except.error GError.noDestinationExtension := by
  refine ⟨fun s e => ?_, rfl, rfl⟩
  unfold inferDecryptDestination inferDecryptDestinationSpec
  by_cases he : e = []
  · subst he
    rw [if_pos (show ([] : Str) = [] from rfl),
      if_neg (show ¬(([] : Str) ≠ []) from fun h => h rfl)]
    by_cases hs : 4 < s.length
    · have h1 := ext_suffix_iff_drop s (str (r".gpg")) (by decide)
      have h2 := ext_suffix_iff_drop s (str (r".pgp")) (by decide)
      have h3 := ext_suffix_iff_drop s (str (r".asc")) (by decide)
      by_cases hm : s.drop (s.length - 4) = str (r".gpg") ∨
          s.drop (s.length - 4) = str (r".pgp") ∨ s.drop (s.length - 4) = str (r".asc")
      · rw [if_pos ⟨hs, hm⟩, if_pos ⟨hs, (or_congr h1 (or_congr h2 h3)).mp hm⟩]
      · rw [if_neg (fun h => hm h.2),
          if_neg (fun h => hm ((or_congr h1 (or_congr h2 h3)).mpr h.2))]
    · rw [if_neg (show ¬(4 < s.length ∧
            (s.drop (s.length - 4) = str (r".gpg") ∨
             s.drop (s.length - 4) = str (r".pgp") ∨
             s.drop (s.length - 4) = str (r".asc"))) from fun h => hs h.1),
        if_neg (show ¬(4 < s.length ∧
            (str (r".gpg") <:+ s ∨ str (r".pgp") <:+ s ∨ str (r".asc") <:+ s)) from
          fun h => hs h.1)]
  · rw [if_neg he, if_pos (show e ≠ [] from he)]


theorem mapLookup_map_sorted (m : KeyUidSignaturesType) (k : Str) :
    List.Sorted sigLe
      (mapLookup (m.map (fun p => (p.1, List.insertionSort sigLe p.2))) k) := by
  induction m with
  | nil => exact List.sorted_nil
  | cons p rest ih =>
      by_cases h : p.1 = k
      · simpa [mapLookup, h] using List.sorted_insertionSort sigLe p.2
      · simpa [mapLookup, h] using ih

theorem fillUidSignatures_lookup_sorted (l : List KeySigHandle) (k : Str) :
    List.Sorted sigLe (mapLookup (fillUidSignatures l) k) :=
  mapLookup_map_sorted _ k


/-- Claim C5: in every user-ID record produced by the model builder, each
issuer's signature slice is ordered by creation time descending, and for
three signatures from one issuer created at times t1 < t2 < t3 the built
slice for that issuer is exactly [t3, t2, t1]. -/
theorem fillUidSignatures_sorted_desc (t1 t2 t3 : Int) (h12 : t1 < t2) (h23 : t2 < t3) :
    (∀ (handles : List UserIDHandle) (u : KeyUserIDsType), u ∈ fillUserIDs handles →
        ∀ k : Str, List.Sorted sigLe (mapLookup u.Signatures k)) ∧
    mapLookup (fillUidSignatures [sampleSig t1, sampleSig t2, sampleSig t3])
        (str (r"0123456789ABCDEF")) =
      [fillOneSig (sampleSig t3), fillOneSig (sampleSig t2), fillOneSig (sampleSig t1)] := by
  constructor
  · intro handles
    induction handles with
    | nil => intro u hu k; cases hu
    | cons h rest ih =>
        intro u hu k
        rw [fillUserIDs] at hu
        rcases List.mem_cons.mp hu with hu | hu
        · subst hu
          by_cases hs : h.hasSig
          · simpa [fillOneUid, hs] using fillUidSignatures_lookup_sorted h.sigList k
          · simp [fillOneUid, hs, mapLookup]
        · exact ih u hu k
  · have n12 : ¬ (t2 ≤ t1) := not_le.mpr h12
    have n23 : ¬ (t3 ≤ t2) := not_le.mpr h23
    have n13 : ¬ (t3 ≤ t1) := not_le.mpr (h12.trans h23)
    simp [fillUidSignatures, mapAppend, mapLookup, List.insertionSort,
      List.orderedInsert, sigLe, fillOneSig, sampleSig, n12, n23, n13]

/-- Witness for C5 at creation times 0 < 1 < 2. -/
theorem fillUidSignatures_sorted_desc_witness :
    (0 : Int) < 1 ∧ (1 : Int) < 2 ∧
    mapLookup (fillUidSignatures [sampleSig 0, sampleSig 1, sampleSig 2])
        (str (r"0123456789ABCDEF")) =
      [fillOneSig (sampleSig 2), fillOneSig (sampleSig 1), fillOneSig (sampleSig 0)] :=
  ⟨by decide, by decide,
    (fillUidSignatures_sorted_desc 0 1 2 (by decide) (by decide)).2⟩


/-- Counterexample to C8 as stated: on the inconsistent handle `kBad` the
built record has `HasUserIDs = true` while its `UserIDs` sequence is
empty, so the flag and the sequence do not agree. -/
theorem fillKey_flag_counterexample :
    ¬ (((fillKey kBad).HasUserIDs = false) ↔ ((fillKey kBad).UserIDs = [])) := by
  intro h
  have h1 : (fillKey kBad).UserIDs = [] := rfl
  have h2 : (fillKey kBad).HasUserIDs = true := rfl
  rw [h2] at h
  exact absurd (h.mpr h1) (by decide)

/-- Claim C8 amended: for every engine key handle whose `HasUserIDs` flag
agrees with the non-emptiness of its user-ID chain (the consistency the
builder assumes of the engine), the built record's `HasUserIDs` flag is
false exactly when its `UserIDs` sequence is empty. -/
theorem fillKey_flag_agrees (k : KeyHandle)
    (hcons : k.hasUserIDs = true ↔ k.userIDs ≠ []) :
    ((fillKey k).HasUserIDs = false) ↔ ((fillKey k).UserIDs = []) := by
  have hflag : (fillKey k).HasUserIDs = k.hasUserIDs := rfl
  have hids : (fillKey k).UserIDs = if k.hasUserIDs then fillUserIDs k.userIDs else [] := rfl
  rw [hflag, hids]
  cases hk : k.hasUserIDs with
  | false => simp
  | true =>
      have hne : k.userIDs ≠ [] := hcons.mp hk
      simp only [if_true, Bool.true_eq_false, false_iff]
      cases hu : k.userIDs with
      | nil => exact absurd hu hne
      | cons a rest => simp [hu, fillUserIDs]

/-- Witness for C8 on a consistent handle (flag unset, empty chain). -/
theorem fillKey_flag_agrees_witness :
    (({ kBad with hasUserIDs := false } : KeyHandle).hasUserIDs = true ↔
      ({ kBad with hasUserIDs := false } : KeyHandle).userIDs ≠ []) ∧
    (((fillKey { kBad with hasUserIDs := false }).HasUserIDs = false) ↔
      ((fillKey { kBad with hasUserIDs := false }).UserIDs = [])) :=
  ⟨by decide, fillKey_flag_agrees _ (by decide)⟩


theorem stat_cons_same (fs : Fs) (p : Str) (e : FsEntry) :
    Fs.stat ((p, e) :: fs) p = some e := by
  simp [Fs.stat, List.find?]

theorem stat_cons_ne (fs : Fs) (p q : Str) (e : FsEntry) (h : q ≠ p) :
    Fs.stat ((p, e) :: fs) q = fs.stat q := by
  simp only [Fs.stat, List.find?]
  rw [decide_eq_false (fun hpq => h hpq.symm)]

theorem stat_removeEntry_ne (fs : Fs) (p q : Str) (h : q ≠ p) :
    (fs.removeEntry p).stat q = fs.stat q := by
  induction fs with
  | nil => rfl
  | cons a rest ih =>
      obtain ⟨a1, a2⟩ := a
      by_cases hp : a1 = p
      · have haq : q ≠ a1 := fun hq => h (hq.trans hp)
        simp only [Fs.removeEntry, List.filter] at ih ⊢
        rw [decide_eq_false (fun hc => hc hp)]
        show Fs.stat (List.filter (fun e => decide ¬e.1 = p) rest) q =
          Fs.stat ((a1, a2) :: rest) q
        rw [ih, stat_cons_ne _ _ _ _ haq]
      · simp only [Fs.removeEntry, List.filter] at ih ⊢
        rw [decide_eq_true (show ¬ a1 = p from hp)]
        show Fs.stat ((a1, a2) :: List.filter (fun e => decide ¬e.1 = p) rest) q =
          Fs.stat ((a1, a2) :: rest) q
        by_cases hq : q = a1
        · subst hq
          rw [stat_cons_same, stat_cons_same]
        · rw [stat_cons_ne _ _ _ _ hq, stat_cons_ne _ _ _ _ hq, ih]

theorem stat_write_same (fs : Fs) (p : Str) (c : List Nat) :
    (fs.write p c).stat p = some (FsEntry.file c) := by
  simp [Fs.write, stat_cons_same]

theorem stat_write_ne (fs : Fs) (p q : Str) (c : List Nat) (h : q ≠ p) :
    (fs.write p c).stat q = fs.stat q := by
  simp only [Fs.write]
  rw [stat_cons_ne _ _ _ _ h, stat_removeEntry_ne _ _ _ h]

theorem append2_ne (l m n : Str) (hm : m ≠ []) : l ++ m ++ n ≠ l := by
  intro h
  have hlen := congrArg List.length h
  rw [List.length_append, List.length_append] at hlen
  have hm0 : m.length = 0 := by omega
  exact hm (List.length_eq_zero.mp hm0)

/-- Claim C6: for every operation tag other than `EncryptAddRecp` or
`EncryptChgRecp`, `ModRecipients` returns the invalid-operation
precondition error, leaves the filesystem untouched, and produces no
events at all — no engine call, no file created, renamed or removed. -/
theorem modRecipients_invalid_operation (env : ModEnv) (operation : Nat)
    (filename backupExtension : Str) (recipients : List Str) (fs : Fs)
    (h1 : operation ≠ gpgme.EncryptAddRecp) (h2 : operation ≠ gpgme.EncryptChgRecp) :
    ModRecipients env operation filename backupExtension recipients fs =
      (Except.error (GError.invalidOperation operation), fs, []) := by
  unfold ModRecipients
  rw [if_pos ⟨h1, h2⟩]

/-- Witness for C6: tag `gpgme.EncryptAlwaysTrust` (1) is neither of the
two accepted tags, and the call returns the error with no mutation. -/
theorem modRecipients_invalid_operation_witness :
    gpgme.EncryptAlwaysTrust ≠ gpgme.EncryptAddRecp ∧
    gpgme.EncryptAlwaysTrust ≠ gpgme.EncryptChgRecp ∧
    ModRecipients
        { newOk := true, setProtocolOk := true, newDataInOk := true,
          setFileNameInOk := true, newDataOutOk := true, randomSuffix := str (r"AAAAAAAA"),
          setFileNameOutOk := true, findKeys := fun _ => some [1],
          encryptResult := some [2], closeOutOk := true, closeInOk := true }
        gpgme.EncryptAlwaysTrust (str (r"f")) (str (r".bak")) [str (r"alice")]
        [(str (r"f"), FsEntry.file [1])] =
      (Except.error (GError.invalidOperation gpgme.EncryptAlwaysTrust),
        [(str (r"f"), FsEntry.file [1])], []) :=
  ⟨by decide, by decide,
    modRecipients_invalid_operation _ _ _ _ _ _ (by decide) (by decide)⟩

/-- Claim C10: `EncryptFile` performs no destination-existence check; on a
filesystem where the computed destination (explicit argument, or source
plus `.gpg`) already holds any entry, a run whose engine steps succeed
returns no error and the destination afterwards holds the engine output,
overwriting the pre-existing entry. -/
theorem encryptFile_overwrites_destination (env : EncEnv)
    (sourceFilename destinationFilename : Str) (recipients : List Str) (sign : Bool)
    (fs : Fs) (ks cipher : List Nat) (oldEntry : FsEntry)
    (hnew : env.newOk = true) (hprot : env.setProtocolOk = true)
    (hdin : env.newDataInOk = true) (hfin : env.setFileNameInOk = true)
    (hdout : env.newDataOutOk = true) (hfout : env.setFileNameOutOk = true)
    (hkeys : findKeysAll env.findKeys recipients = Except.ok ks)
    (henc : env.encryptResult = some cipher)
    (_hex : fs.stat (encDestination sourceFilename destinationFilename) = some oldEntry) :
    (EncryptFile env sourceFilename destinationFilename recipients sign fs).1 = none ∧
    (EncryptFile env sourceFilename destinationFilename recipients sign fs).2.1.stat
        (encDestination sourceFilename destinationFilename) =
      some (FsEntry.file cipher) := by
  simp [EncryptFile, hnew, hprot, hdin, hfin, hdout, hfout, hkeys, henc, stat_write_same]

/-- Witness for C10: destination `d` already holds content `[9]`; the run
succeeds and `d` ends up holding the engine output `[2]`. -/
theorem encryptFile_overwrites_destination_witness :
    findKeysAll (fun _ => some [1]) [str (r"alice")] = Except.ok [1] ∧
    Fs.stat [(str (r"d"), FsEntry.file [9])] (encDestination (str (r"s")) (str (r"d"))) =
      some (FsEntry.file [9]) ∧
    ((EncryptFile
        { newOk := true, setProtocolOk := true, newDataInOk := true,
          setFileNameInOk := true, newDataOutOk := true, setFileNameOutOk := true,
          findKeys := fun _ => some [1], encryptResult := some [2] }
        (str (r"s")) (str (r"d")) [str (r"alice")] false
        [(str (r"d"), FsEntry.file [9])]).1 = none ∧
      (EncryptFile
        { newOk := true, setProtocolOk := true, newDataInOk := true,
          setFileNameInOk := true, newDataOutOk := true, setFileNameOutOk := true,
          findKeys := fun _ => some [1], encryptResult := some [2] }
        (str (r"s")) (str (r"d")) [str (r"alice")] false
        [(str (r"d"), FsEntry.file [9])]).2.1.stat (encDestination (str (r"s")) (str (r"d"))) =
      some (FsEntry.file [2])) :=
  ⟨rfl, by decide,
    encryptFile_overwrites_destination _ _ _ _ _ _ [1] [2] (FsEntry.file [9])
      rfl rfl rfl rfl rfl rfl rfl rfl (by decide)⟩

theorem append2_inj (l m a b : Str) (h : l ++ m ++ a = l ++ m ++ b) : a = b :=
  (List.append_right_inj (l ++ m)).mp h

/-- Counterexample to C1 as stated: with backup extension `.tmp` the
backup path `f + randomSuffix + ".tmp"` coincides with the temporary
output path, so the backup rename overwrites the engine output; the call
still succeeds, yet afterwards `f` holds the original content `[1]`, not
the engine output `[2]`. -/
theorem modRecipients_tmp_backup_clobbers :
    c1Env.encryptResult = some [2] ∧
    (ModRecipients c1Env gpgme.EncryptAddRecp (str (r"f")) (str (r".tmp"))
        [str (r"alice")] [(str (r"f"), FsEntry.file [1])]).1 = Except.ok () ∧
    (ModRecipients c1Env gpgme.EncryptAddRecp (str (r"f")) (str (r".tmp"))
        [str (r"alice")] [(str (r"f"), FsEntry.file [1])]).2.1.stat (str (r"f")) =
      some (FsEntry.file [1]) ∧
    ¬ ((ModRecipients c1Env gpgme.EncryptAddRecp (str (r"f")) (str (r".tmp"))
        [str (r"alice")] [(str (r"f"), FsEntry.file [1])]).2.1.stat (str (r"f")) =
      some (FsEntry.file [2])) := by
  refine ⟨rfl, rfl, by decide, by decide⟩

/-- Claim C1 amended: for every successful `ModRecipients` run with a
valid operation tag whose backup extension is not `.tmp` (for backup
extension exactly `.tmp` the backup path collides with the temporary
output path and the original content, not the engine output, ends at the
source path), after the engine succeeds and both data handles are closed
the commit phase performs exactly, in order: (1) rename of the source to
`source + randomSuffix + backupExtension` when a non-empty backup
extension was given, else removal of the source; then (2) rename of the
temporary output onto the source path, which afterwards holds the engine
output. -/
theorem modRecipients_commit_success (env : ModEnv) (operation : Nat)
    (filename backupExtension : Str) (recipients : List Str) (fs : Fs)
    (content cipher ks : List Nat)
    (hop : operation = gpgme.EncryptAddRecp ∨ operation = gpgme.EncryptChgRecp)
    (hsrc : fs.stat filename = some (FsEntry.file content))
    (hnew : env.newOk = true) (hprot : env.setProtocolOk = true)
    (hdin : env.newDataInOk = true) (hfin : env.setFileNameInOk = true)
    (hdout : env.newDataOutOk = true) (hfout : env.setFileNameOutOk = true)
    (hkeys : findKeysAll env.findKeys recipients = Except.ok ks)
    (henc : env.encryptResult = some cipher)
    (hcout : env.closeOutOk = true) (hcin : env.closeInOk = true)
    (hext : backupExtension ≠ str (r".tmp")) :
    (ModRecipients env operation filename backupExtension recipients fs).1 = Except.ok () ∧
    (ModRecipients env operation filename backupExtension recipients fs).2.2 =
      [Event.engineEncrypt (operation ||| gpgme.EncryptFile),
       Event.fsWrite (filename ++ '.' :: env.randomSuffix ++ str (r".tmp")) cipher,
       Event.closeOut, Event.closeIn] ++
      (if backupExtension ≠ [] then
          [Event.fsRename filename (filename ++ '.' :: env.randomSuffix ++ backupExtension)]
        else [Event.fsRemove filename]) ++
      [Event.fsRename (filename ++ '.' :: env.randomSuffix ++ str (r".tmp")) filename] ∧
    (ModRecipients env operation filename backupExtension recipients fs).2.1.stat filename =
      some (FsEntry.file cipher) := by
  have hop' : ¬ (operation ≠ gpgme.EncryptAddRecp ∧ operation ≠ gpgme.EncryptChgRecp) := by
    rcases hop with h | h
    · exact fun hc => hc.1 h
    · exact fun hc => hc.2 h
  have hdot : ('.' :: env.randomSuffix : Str) ≠ [] := fun h => List.noConfusion h
  have htmp_ne : filename ++ '.' :: env.randomSuffix ++ str (r".tmp") ≠ filename :=
    append2_ne _ _ _ hdot
  have h1 : (fs.write (filename ++ '.' :: env.randomSuffix ++ str (r".tmp")) cipher).stat
      filename = some (FsEntry.file content) :=
    (stat_write_ne _ _ _ _ (Ne.symm htmp_ne)).trans hsrc
  by_cases hbe : backupExtension = []
  · subst hbe
    have h2 : ((fs.write (filename ++ '.' :: env.randomSuffix ++ str (r".tmp"))
        cipher).removeEntry filename).stat
        (filename ++ '.' :: env.randomSuffix ++ str (r".tmp")) =
        some (FsEntry.file cipher) :=
      (stat_removeEntry_ne _ _ _ htmp_ne).trans (stat_write_same _ _ _)
    simp only [List.append_assoc, List.cons_append] at h1 h2
    simp [ModRecipients, Fs.rename, Fs.removeFile, hop', hsrc, hnew, hprot, hdin, hfin,
      hdout, hfout, hkeys, henc, hcout, hcin, h1, h2, stat_cons_same]
  · have hbk_ne : filename ++ '.' :: env.randomSuffix ++ str (r".tmp") ≠
        filename ++ '.' :: env.randomSuffix ++ backupExtension := by
      intro h
      exact hext (append2_inj _ _ _ _ h).symm
    have h2 : Fs.stat
        ((filename ++ '.' :: env.randomSuffix ++ backupExtension, FsEntry.file content) ::
          (((fs.write (filename ++ '.' :: env.randomSuffix ++ str (r".tmp"))
              cipher).removeEntry filename).removeEntry
            (filename ++ '.' :: env.randomSuffix ++ backupExtension)))
        (filename ++ '.' :: env.randomSuffix ++ str (r".tmp")) =
        some (FsEntry.file cipher) :=
      (stat_cons_ne _ _ _ _ hbk_ne).trans
        ((stat_removeEntry_ne _ _ _ hbk_ne).trans
          ((stat_removeEntry_ne _ _ _ htmp_ne).trans (stat_write_same _ _ _)))
    simp only [List.append_assoc, List.cons_append] at h1 h2
    simp [ModRecipients, Fs.rename, hop', hsrc, hnew, hprot, hdin, hfin,
      hdout, hfout, hkeys, henc, hcout, hcin, h1, h2, hbe, stat_cons_same]

/-- Witness for C1: a concrete successful run with backup extension
`.bak`; the source afterwards holds the engine output `[2]` and the event
trace is exactly engine write, both closes, backup rename, final rename. -/
theorem modRecipients_commit_success_witness :
    ((gpgme.EncryptAddRecp = gpgme.EncryptAddRecp ∨
        gpgme.EncryptAddRecp = gpgme.EncryptChgRecp) ∧
      Fs.stat [(str (r"f"), FsEntry.file [1])] (str (r"f")) = some (FsEntry.file [1]) ∧
      findKeysAll c1Env.findKeys [str (r"alice")] = Except.ok [1] ∧
      str (r".bak") ≠ str (r".tmp")) ∧
    ((ModRecipients c1Env gpgme.EncryptAddRecp (str (r"f")) (str (r".bak"))
        [str (r"alice")] [(str (r"f"), FsEntry.file [1])]).1 = Except.ok () ∧
      (ModRecipients c1Env gpgme.EncryptAddRecp (str (r"f")) (str (r".bak"))
        [str (r"alice")] [(str (r"f"), FsEntry.file [1])]).2.2 =
        [Event.engineEncrypt (gpgme.EncryptAddRecp ||| gpgme.EncryptFile),
         Event.fsWrite (str (r"f") ++ '.' :: c1Env.randomSuffix ++ str (r".tmp")) [2],
         Event.closeOut, Event.closeIn] ++
        (if (str (r".bak") : Str) ≠ [] then
            [Event.fsRename (str (r"f"))
              (str (r"f") ++ '.' :: c1Env.randomSuffix ++ str (r".bak"))]
          else [Event.fsRemove (str (r"f"))]) ++
        [Event.fsRename (str (r"f") ++ '.' :: c1Env.randomSuffix ++ str (r".tmp"))
          (str (r"f"))] ∧
      (ModRecipients c1Env gpgme.EncryptAddRecp (str (r"f")) (str (r".bak"))
        [str (r"alice")] [(str (r"f"), FsEntry.file [1])]).2.1.stat (str (r"f")) =
        some (FsEntry.file [2])) :=
  ⟨⟨Or.inl rfl, by decide, rfl, by decide⟩,
    modRecipients_commit_success c1Env gpgme.EncryptAddRecp (str (r"f")) (str (r".bak"))
      [str (r"alice")] [(str (r"f"), FsEntry.file [1])] [1] [2] [1]
      (Or.inl rfl) (by decide) rfl rfl rfl rfl rfl rfl rfl rfl rfl rfl (by decide)⟩

/-- Claim C2: when the inferred or explicitly given destination already
exists — whatever entry it holds — `DecryptFile` fails with the
destination-exists error, leaves the filesystem unchanged and emits no
event, so the destination is not overwritten. -/
theorem decryptFile_destination_exists (env : DecEnv)
    (cypherFilename clearFilename destination : Str) (fs : Fs)
    (content : List Nat) (entry : FsEntry)
    (hsrc : fs.stat cypherFilename = some (FsEntry.file content))
    (hnew : env.newOk = true) (hprot : env.setProtocolOk = true)
    (hdin : env.newDataInOk = true) (hfin : env.setFileNameInOk = true)
    (hdout : env.newDataOutOk = true)
    (hinf : inferDecryptDestination cypherFilename clearFilename = Except.ok destination)
    (hex : fs.stat destination = some entry) :
    (DecryptFile env cypherFilename clearFilename fs).1.error =
      some (GError.destinationExists destination) ∧
    (DecryptFile env cypherFilename clearFilename fs).2.1 = fs ∧
    (DecryptFile env cypherFilename clearFilename fs).2.2 = [] := by
  simp [DecryptFile, hsrc, hnew, hprot, hdin, hfin, hdout, hinf, hex]

/-- Witness for C2: source `a.gpg`, inferred destination `a` already holds
`[9]`; the run fails with the destination-exists error and touches
nothing. -/
theorem decryptFile_destination_exists_witness :
    (Fs.stat [(str (r"a.gpg"), FsEntry.file [7]), (str (r"a"), FsEntry.file [9])]
        (str (r"a.gpg")) = some (FsEntry.file [7]) ∧
      inferDecryptDestination (str (r"a.gpg")) [] = Except.ok (str (r"a")) ∧
      Fs.stat [(str (r"a.gpg"), FsEntry.file [7]), (str (r"a"), FsEntry.file [9])]
        (str (r"a")) = some (FsEntry.file [9])) ∧
    ((DecryptFile c3Env (str (r"a.gpg")) []
        [(str (r"a.gpg"), FsEntry.file [7]), (str (r"a"), FsEntry.file [9])]).1.error =
      some (GError.destinationExists (str (r"a"))) ∧
      (DecryptFile c3Env (str (r"a.gpg")) []
        [(str (r"a.gpg"), FsEntry.file [7]), (str (r"a"), FsEntry.file [9])]).2.1 =
        [(str (r"a.gpg"), FsEntry.file [7]), (str (r"a"), FsEntry.file [9])] ∧
      (DecryptFile c3Env (str (r"a.gpg")) []
        [(str (r"a.gpg"), FsEntry.file [7]), (str (r"a"), FsEntry.file [9])]).2.2 = []) :=
  ⟨⟨by decide, rfl, by decide⟩,
    decryptFile_destination_exists c3Env (str (r"a.gpg")) [] (str (r"a"))
      [(str (r"a.gpg"), FsEntry.file [7]), (str (r"a"), FsEntry.file [9])] [7]
      (FsEntry.file [9]) (by decide) rfl rfl rfl rfl rfl rfl (by decide)⟩

/-- Claim C3: during `DecryptFile`, a `No data` failure of the combined
decrypt+verify call is downgraded to the non-fatal warning string while
the decryption result and verify result are still retrieved and returned;
any other failure of that call is fatal — the wrapped error is returned
with no result retrieval and an untouched filesystem. -/
theorem decryptFile_no_data_warning (env : DecEnv)
    (cypherFilename clearFilename destination : Str) (fs : Fs)
    (content : List Nat) (dr : Nat) (fn : Str) (sgs : List Nat)
    (hsrc : fs.stat cypherFilename = some (FsEntry.file content))
    (hnew : env.newOk = true) (hprot : env.setProtocolOk = true)
    (hdin : env.newDataInOk = true) (hfin : env.setFileNameInOk = true)
    (hdout : env.newDataOutOk = true)
    (hinf : inferDecryptDestination cypherFilename clearFilename = Except.ok destination)
    (hnex : fs.stat destination = none)
    (hfout : env.setFileNameOutOk = true)
    (hdr : env.decryptResultOut = some dr)
    (hvr : env.verifyResultOut = some (fn, sgs)) :
    (env.decryptVerifyErr = some noDataMsg →
      DecryptFile env cypherFilename clearFilename fs =
        ({ decryptionResult := dr, filename := fn, signatures := sgs,
           warning := noDataWarning, error := none }, fs,
          [Event.engineDecryptVerify, Event.engineDecryptResult,
           Event.engineVerifyResult])) ∧
    (∀ m : Str, env.decryptVerifyErr = some m → m ≠ noDataMsg →
      DecryptFile env cypherFilename clearFilename fs =
        ({ decryptionResult := 0, filename := [], signatures := [], warning := [],
           error := some (GError.decryptVerifyFailed m) }, fs,
          [Event.engineDecryptVerify])) := by
  constructor
  · intro hdv
    simp [DecryptFile, decryptTail, hsrc, hnew, hprot, hdin, hfin, hdout, hinf, hnex,
      hfout, hdv, hdr, hvr]
  · intro m hdv hm
    simp [DecryptFile, hsrc, hnew, hprot, hdin, hfin, hdout, hinf, hnex, hfout, hdv, hm]

/-- Witness for C3: a concrete `No data` run still returns the retrieved
decryption result 5 and verify result (`orig.txt`, `[3]`) together with
the warning string and a nil error. -/
theorem decryptFile_no_data_warning_witness :
    (Fs.stat [(str (r"a.gpg"), FsEntry.file [7])] (str (r"a.gpg")) =
        some (FsEntry.file [7]) ∧
      inferDecryptDestination (str (r"a.gpg")) [] = Except.ok (str (r"a")) ∧
      Fs.stat [(str (r"a.gpg"), FsEntry.file [7])] (str (r"a")) = none ∧
      c3Env.decryptVerifyErr = some noDataMsg) ∧
    DecryptFile c3Env (str (r"a.gpg")) [] [(str (r"a.gpg"), FsEntry.file [7])] =
      ({ decryptionResult := 5, filename := str (r"orig.txt"), signatures := [3],
         warning := noDataWarning, error := none },
        [(str (r"a.gpg"), FsEntry.file [7])],
        [Event.engineDecryptVerify, Event.engineDecryptResult,
         Event.engineVerifyResult]) :=
  ⟨⟨by decide, rfl, by decide, rfl⟩,
    (decryptFile_no_data_warning c3Env (str (r"a.gpg")) [] (str (r"a"))
      [(str (r"a.gpg"), FsEntry.file [7])] [7] 5 (str (r"orig.txt")) [3]
      (by decide) rfl rfl rfl rfl rfl rfl (by decide) rfl rfl rfl).1 rfl⟩

theorem signReadLoop_err (pre rest : List ReadStep) (bytes : List Nat) (m : Str)
    (acc : List Nat) (hpre : ∀ s ∈ pre, s.isOk) :
    signReadLoop (pre ++ ReadStep.rErr bytes m :: rest) acc =
      some (acc ++ okBytesConcat pre, bytes.length,
        some (GoError.wrapped (str (r"SignBytes - Read failed")) (GoError.readRaw m))) := by
  induction pre generalizing acc with
  | nil => simp [signReadLoop, okBytesConcat]
  | cons s t ih =>
      cases s with
      | rOk b =>
          have ht : ∀ x ∈ t, x.isOk := fun x hx => hpre x (List.mem_cons_of_mem _ hx)
          have h := ih (acc ++ b) ht
          simp only [List.cons_append, signReadLoop, okBytesConcat]
          simpa [List.append_assoc] using h
      | rEof b =>
          have := hpre _ (List.mem_cons_self _ _)
          simp [ReadStep.isOk] at this
      | rErr b mm =>
          have := hpre _ (List.mem_cons_self _ _)
          simp [ReadStep.isOk] at this

theorem signReadLoop_eof (pre : List ReadStep) (bytes acc : List Nat)
    (hpre : ∀ s ∈ pre, s.isOk) :
    ∃ out n, signReadLoop (pre ++ [ReadStep.rEof bytes]) acc =
      some (out, n, some GoError.eof) := by
  induction pre generalizing acc with
  | nil => exact ⟨acc ++ bytes, bytes.length, by simp [signReadLoop]⟩
  | cons s t ih =>
      cases s with
      | rOk b =>
          have ht : ∀ x ∈ t, x.isOk := fun x hx => hpre x (List.mem_cons_of_mem _ hx)
          obtain ⟨out, n, h⟩ := ih (acc ++ b) ht
          exact ⟨out, n, by simpa [signReadLoop] using h⟩
      | rEof b =>
          have := hpre _ (List.mem_cons_self _ _)
          simp [ReadStep.isOk] at this
      | rErr b mm =>
          have := hpre _ (List.mem_cons_self _ _)
          simp [ReadStep.isOk] at this

theorem verifyReadLoop_eof (pre : List ReadStep) (bytes acc : List Nat)
    (hpre : ∀ s ∈ pre, s.isOk) :
    ∃ plain, verifyReadLoop (pre ++ [ReadStep.rEof bytes]) acc =
      some (plain, some GoError.eof) := by
  induction pre generalizing acc with
  | nil =>
      exact ⟨if 0 < bytes.length then acc ++ bytes else acc, by simp [verifyReadLoop]⟩
  | cons s t ih =>
      cases s with
      | rOk b =>
          have ht : ∀ x ∈ t, x.isOk := fun x hx => hpre x (List.mem_cons_of_mem _ hx)
          obtain ⟨plain, h⟩ := ih (if 0 < b.length then acc ++ b else acc) ht
          exact ⟨plain, by simpa [verifyReadLoop] using h⟩
      | rEof b =>
          have := hpre _ (List.mem_cons_self _ _)
          simp [ReadStep.isOk] at this
      | rErr b mm =>
          have := hpre _ (List.mem_cons_self _ _)
          simp [ReadStep.isOk] at this

/-- Counterexample to C7 as stated: the first chunk read returns 3 bytes
successfully and the second read fails with a non-EOF error; `SignBytes`
returns the wrapped error together with the partially accumulated buffer
`[1, 2, 3]` — the partial output is returned to the caller, not
discarded. -/
theorem signBytes_partial_returned :
    SignBytes c7Env [] (str (r"k")) true =
      some ([1, 2, 3], 0, [str (r"F1")],
        some (GoError.wrapped (str (r"SignBytes - Read failed"))
          (GoError.readRaw (str (r"boom"))))) ∧
    ¬ (SignBytes c7Env [] (str (r"k")) true).map (fun out => out.1) = some [] := by
  exact ⟨rfl, by decide⟩

/-- Claim C7 amended: in `SignBytes`, a chunk-read error that is not
end-of-stream is fatal — the wrapped error is propagated to the caller and
the failing read's own bytes are dropped — but the output accumulated from
the earlier successful chunks is returned alongside the error (Go named
returns), not discarded. -/
theorem signBytes_read_error_propagates (env : SignEnv) (plainText : List Nat)
    (signWith : Str) (armored : Bool) (fps : List Str) (pre rest : List ReadStep)
    (bytes : List Nat) (m : Str)
    (hnew : env.newOk = true) (hprot : env.setProtocolOk = true)
    (hdin : env.newDataInOk = true) (hdout : env.newDataOutOk = true)
    (hfk : env.findKeysRes = some fps) (hsig : env.signOk = true)
    (hrew : env.rewindOk = true)
    (hreads : env.reads = pre ++ ReadStep.rErr bytes m :: rest)
    (hpre : ∀ s ∈ pre, s.isOk) :
    SignBytes env plainText signWith armored =
      some (okBytesConcat pre, bytes.length, fps,
        some (GoError.wrapped (str (r"SignBytes - Read failed"))
          (GoError.readRaw m))) := by
  simp [SignBytes, hnew, hprot, hdin, hdout, hfk, hsig, hrew, hreads,
    signReadLoop_err _ _ _ _ _ hpre]

/-- Witness for C7 (amended) at the concrete run of the counterexample
environment: the accumulated `[1, 2, 3]` is returned with the wrapped
error. -/
theorem signBytes_read_error_propagates_witness :
    (c7Env.findKeysRes = some [str (r"F1")] ∧
      c7Env.reads = [ReadStep.rOk [1, 2, 3]] ++ ReadStep.rErr [] (str (r"boom")) :: [] ∧
      (∀ s ∈ [ReadStep.rOk [1, 2, 3]], s.isOk)) ∧
    SignBytes c7Env [] (str (r"k")) true =
      some (okBytesConcat [ReadStep.rOk [1, 2, 3]], List.length ([] : List Nat),
        [str (r"F1")],
        some (GoError.wrapped (str (r"SignBytes - Read failed"))
          (GoError.readRaw (str (r"boom"))))) :=
  ⟨⟨rfl, rfl, by simp [ReadStep.isOk]⟩,
    signBytes_read_error_propagates c7Env [] (str (r"k")) true [str (r"F1")]
      [ReadStep.rOk [1, 2, 3]] [] [] (str (r"boom"))
      rfl rfl rfl rfl rfl rfl rfl rfl (by simp [ReadStep.isOk])⟩

/-- Claim C9: on the fully successful path — every engine step succeeds
and the chunked drain reaches end-of-stream — both `SignBytes` and
`VerifyBytes` return a non-nil error equal to `io.EOF` rather than nil,
because the named error return still holds the end-of-stream sentinel when
the loop breaks. -/
theorem signVerifyBytes_success_return_eof (se : SignEnv) (ve : VerifyEnv)
    (plainText cipherText : List Nat) (signWith : Str) (armored : Bool)
    (fps : List Str) (fn : Str) (sgs : List Nat)
    (pre1 pre2 : List ReadStep) (b1 b2 : List Nat)
    (hnew1 : se.newOk = true) (hprot1 : se.setProtocolOk = true)
    (hdin1 : se.newDataInOk = true) (hdout1 : se.newDataOutOk = true)
    (hfk : se.findKeysRes = some fps) (hsig : se.signOk = true)
    (hrew1 : se.rewindOk = true)
    (hr1 : se.reads = pre1 ++ [ReadStep.rEof b1]) (hp1 : ∀ s ∈ pre1, s.isOk)
    (hnew2 : ve.newOk = true) (hprot2 : ve.setProtocolOk = true)
    (hdin2 : ve.newDataInOk = true) (hdout2 : ve.newDataOutOk = true)
    (hvr : ve.verifyRes = some (fn, sgs)) (hrew2 : ve.rewindOk = true)
    (hr2 : ve.reads = pre2 ++ [ReadStep.rEof b2]) (hp2 : ∀ s ∈ pre2, s.isOk) :
    (∃ out n, SignBytes se plainText signWith armored =
        some (out, n, fps, some GoError.eof)) ∧
    (∃ plain, VerifyBytes ve cipherText =
        some (plain, sgs, fn, some GoError.eof)) := by
  constructor
  · obtain ⟨out, n, h⟩ := signReadLoop_eof pre1 b1 [] hp1
    exact ⟨out, n, by
      simp [SignBytes, hnew1, hprot1, hdin1, hdout1, hfk, hsig, hrew1, hr1, h]⟩
  · obtain ⟨plain, h⟩ := verifyReadLoop_eof pre2 b2 [] hp2
    exact ⟨plain, by
      simp [VerifyBytes, hnew2, hprot2, hdin2, hdout2, hvr, hrew2, hr2, h]⟩

/-- Witness for C9: concrete all-success runs whose single read returns
`io.EOF` with a final chunk; both functions return the `io.EOF` error. -/
theorem signVerifyBytes_success_return_eof_witness :
    (({ c7Env with reads := [ReadStep.rEof [4]] } : SignEnv).reads =
        [] ++ [ReadStep.rEof [4]] ∧
      (∀ s ∈ ([] : List ReadStep), s.isOk)) ∧
    ((∃ out n, SignBytes { c7Env with reads := [ReadStep.rEof [4]] } [] (str (r"k")) true =
        some (out, n, [str (r"F1")], some GoError.eof)) ∧
      (∃ plain, VerifyBytes
          { newOk := true, setProtocolOk := true, newDataInOk := true, newDataOutOk := true,
            verifyRes := some (str (r"orig.txt"), [3]), rewindOk := true,
            reads := [ReadStep.rEof [4]] } [9] =
        some (plain, [3], str (r"orig.txt"), some GoError.eof))) :=
  ⟨⟨rfl, fun s hs => absurd hs (List.not_mem_nil s)⟩,
    signVerifyBytes_success_return_eof
      { c7Env with reads := [ReadStep.rEof [4]] }
      { newOk := true, setProtocolOk := true, newDataInOk := true, newDataOutOk := true,
        verifyRes := some (str (r"orig.txt"), [3]), rewindOk := true,
        reads := [ReadStep.rEof [4]] }
      [] [9] (str (r"k")) true [str (r"F1")] (str (r"orig.txt")) [3] [] [] [4] [4]
      rfl rfl rfl rfl rfl rfl rfl rfl (fun s hs => absurd hs (List.not_mem_nil s))
      rfl rfl rfl rfl rfl rfl rfl (fun s hs => absurd hs (List.not_mem_nil s))⟩

end Gpggohigh
